import Mathlib

/-!
Verification of the grade-statistics engine of the gopher-mcp-tools
repository.

The repository contains two implementations of `calculate_grades_stats`,
one in `src/server/utils.py` (the comprehensive engine, embedded below in
namespace `ServerUtils`) and one in `src/mcp-server/gopher_grades_server.py`
(embedded in namespace `McpServer`).  Python dictionaries mapping grade
labels to student counts are embedded as association lists with distinct
keys; Python `None` results and absent dictionary keys are embedded with
`Option`; Python float arithmetic is embedded as exact rational
arithmetic, with `round(x, n)` embedded as rounding to `n` decimal places.
-/

/-- A grade distribution: the embedding of a Python `Dict[str, int]`
mapping letter grades to student counts, as an association list.  A Python
dictionary has distinct keys; theorems that depend on this carry a
`Nodup` hypothesis on the mapped keys. -/
abbrev GradeDist := List (String × Nat)

/-- Embedding of `grades.get(g, 0)`: the count stored for grade `g`,
or `0` when the key is absent. -/
def getD : GradeDist → String → Nat
  | [], _ => 0
  | (k, v) :: t, g => if k = g then v else getD t g

/-- Embedding of `sum(grades.values())`. -/
def totalCount (d : GradeDist) : Nat := (d.map Prod.snd).sum

/-- Embedding of `sum(grades.get(g, 0) for g in L)` for a list `L` of
grade labels. -/
def sumOver (L : List String) (d : GradeDist) : Nat := (L.map (getD d)).sum

/-- The `gpa_map` dictionary literal, identical in both source files:
`A+ = 4.333` down to `F = 0.0`. -/
def gpaTable : List (String × ℚ) :=
  [("A+", 4333/1000), ("A", 4), ("A-", 3667/1000),
   ("B+", 3333/1000), ("B", 3), ("B-", 2667/1000),
   ("C+", 2333/1000), ("C", 2), ("C-", 1667/1000),
   ("D+", 1333/1000), ("D", 1), ("D-", 667/1000),
   ("F", 0)]

/-- Lookup in `gpa_map`: `some v` when the grade is an A-F grade with
point value `v`, `none` otherwise (the embedding of `grade in gpa_map`
together with `gpa_map[grade]`). -/
def gpaMap (g : String) : Option ℚ := (gpaTable.find? (fun p => p.1 == g)).map Prod.snd

/-- The thirteen grade labels of `gpa_map`, in order. -/
def gpaNames : List String := gpaTable.map Prod.fst

/-- The grade-point value of a label, with `0` for labels outside
`gpa_map` (a convenient total version of `gpaMap`). -/
def gpaW (g : String) : ℚ := (gpaMap g).getD 0

/-- Embedding of `total_points`, the loop
`for grade, count in grades.items(): if grade in gpa_map: total_points += gpa_map[grade] * count`,
identical in both source files. -/
def totalPoints : GradeDist → ℚ
  | [] => 0
  | (g, c) :: t => (match gpaMap g with | some v => v * (c : ℚ) | none => 0) + totalPoints t

/-- Embedding of `total_af_students`, the companion accumulation
`total_af_students += count` over grades present in `gpa_map`. -/
def totalAf : GradeDist → Nat
  | [] => 0
  | (g, c) :: t => (if (gpaMap g).isSome then c else 0) + totalAf t

/-- Embedding of Python `round(q, n)`: round to `n` decimal places.
(The embedding uses round-half-away-from-zero on exact rationals in place
of IEEE-754 round-half-to-even; the two agree except at exact decimal
half-way points.) -/
def roundTo (n : ℕ) (q : ℚ) : ℚ := (round (q * 10 ^ n) : ℚ) / 10 ^ n

/-- The possible arguments of the Python functions, which are typed
`Dict[str, int]` but may receive anything at runtime: `None`, an actual
dictionary, or a non-mapping value (any object that is not a `dict`). -/
inductive PyInput where
  | pynone : PyInput
  | pydict : GradeDist → PyInput
  | nonmapping : PyInput

namespace ServerUtils

/-- The `passing_grades` list of `src/server/utils.py`. -/
def passing_grades : List String :=
  ["A+", "A", "A-", "B+", "B", "B-", "C+", "C", "C-", "D+", "D", "D-", "S", "P"]

/-- The `failing_grades` list of `src/server/utils.py`. -/
def failing_grades : List String := ["F", "N"]

/-- The `withdrawn_grades` list of `src/server/utils.py`. -/
def withdrawn_grades : List String := ["W"]

/-- The `a_grades` band of `src/server/utils.py`. -/
def a_grades : List String := ["A+", "A", "A-"]

/-- The `b_grades` band of `src/server/utils.py`. -/
def b_grades : List String := ["B+", "B", "B-"]

/-- The `c_grades` band of `src/server/utils.py`. -/
def c_grades : List String := ["C+", "C", "C-"]

/-- The `d_grades` band of `src/server/utils.py`. -/
def d_grades : List String := ["D+", "D", "D-"]

/-- The `f_grades` band of `src/server/utils.py`. -/
def f_grades : List String := ["F"]

/-- The nested `grade_counts` object of the comprehensive result. -/
structure GradeCounts where
  a_count : Nat
  b_count : Nat
  c_count : Nat
  d_count : Nat
  f_count : Nat
  withdrawn_count : Nat
  passed_count : Nat
  failed_count : Nat
deriving DecidableEq

/-- The result record of `calculate_grades_stats` in
`src/server/utils.py`.  `Option` on a rate field embeds a Python `None`
value.  `grade_counts` is `none` when the `grade_counts` key is absent
from the returned dictionary (the malformed-input branch omits it), and
`grade_distribution` is `none` when that key is absent (the normal branch
omits it).  The five band rates appear flat here; in the source the
normal branch nests them under a `grade_rates` key while the
malformed-input branch returns them flat, with the same values. -/
structure Stats where
  average_gpa : Option ℚ
  total_students : Nat
  total_graded_students : Nat
  total_af_students : Nat
  pass_rate : Option ℚ
  withdrawal_rate : Option ℚ
  a_rate : Option ℚ
  b_rate : Option ℚ
  c_rate : Option ℚ
  d_rate : Option ℚ
  f_rate : Option ℚ
  grade_counts : Option GradeCounts
  grade_distribution : Option GradeDist
deriving DecidableEq

/-- The record returned by the malformed-input branch of
`calculate_grades_stats` (`src/server/utils.py`, guard
`if not grades or not isinstance(grades, dict)`). -/
def emptyStats : Stats :=
  { average_gpa := none, total_students := 0, total_graded_students := 0,
    total_af_students := 0, pass_rate := none, withdrawal_rate := none,
    a_rate := none, b_rate := none, c_rate := none, d_rate := none,
    f_rate := none, grade_counts := none, grade_distribution := some [] }

/-- Embedding of the main path of `calculate_grades_stats` in
`src/server/utils.py` (after the malformed-input guard). -/
def computeStats (grades : GradeDist) : Stats :=
  let total_students := totalCount grades
  let total_af_students := totalAf grades
  let average_gpa : Option ℚ :=
    if 0 < total_af_students then some (totalPoints grades / (total_af_students : ℚ)) else none
  let passed := sumOver passing_grades grades
  let failed := sumOver failing_grades grades
  let withdrawn := sumOver withdrawn_grades grades
  let a_count := sumOver a_grades grades
  let b_count := sumOver b_grades grades
  let c_count := sumOver c_grades grades
  let d_count := sumOver d_grades grades
  let f_count := sumOver f_grades grades
  let total_graded_students := passed + failed
  let pass_rate : Option ℚ :=
    if 0 < total_graded_students then some ((passed : ℚ) / (total_graded_students : ℚ) * 100) else none
  let withdrawal_rate : Option ℚ :=
    if 0 < total_students then some ((withdrawn : ℚ) / (total_students : ℚ) * 100) else none
  let a_rate : Option ℚ :=
    if 0 < total_graded_students then some ((a_count : ℚ) / (total_graded_students : ℚ) * 100) else none
  let b_rate : Option ℚ :=
    if 0 < total_graded_students then some ((b_count : ℚ) / (total_graded_students : ℚ) * 100) else none
  let c_rate : Option ℚ :=
    if 0 < total_graded_students then some ((c_count : ℚ) / (total_graded_students : ℚ) * 100) else none
  let d_rate : Option ℚ :=
    if 0 < total_graded_students then some ((d_count : ℚ) / (total_graded_students : ℚ) * 100) else none
  let f_rate : Option ℚ :=
    if 0 < total_graded_students then some ((f_count : ℚ) / (total_graded_students : ℚ) * 100) else none
  { average_gpa := average_gpa.map (roundTo 3),
    total_students := total_students,
    total_graded_students := total_graded_students,
    total_af_students := total_af_students,
    pass_rate := pass_rate.map (roundTo 1),
    withdrawal_rate := withdrawal_rate.map (roundTo 1),
    a_rate := a_rate.map (roundTo 1),
    b_rate := b_rate.map (roundTo 1),
    c_rate := c_rate.map (roundTo 1),
    d_rate := d_rate.map (roundTo 1),
    f_rate := f_rate.map (roundTo 1),
    grade_counts := some
      { a_count := a_count, b_count := b_count, c_count := c_count,
        d_count := d_count, f_count := f_count, withdrawn_count := withdrawn,
        passed_count := passed, failed_count := failed },
    grade_distribution := none }

/-- Embedding of `calculate_grades_stats` in `src/server/utils.py`.
The guard `if not grades or not isinstance(grades, dict)` fires on
`None` (falsy), on an empty dictionary (falsy) and on every non-`dict`
value. -/
def calculate_grades_stats : PyInput → Stats
  | PyInput.pynone => emptyStats
  | PyInput.nonmapping => emptyStats
  | PyInput.pydict d => if d = [] then emptyStats else computeStats d

end ServerUtils

namespace McpServer

/-- The `passing_grades` list of `src/mcp-server/gopher_grades_server.py`
(C- or better, plus S; no D grades, no P). -/
def passing_grades : List String :=
  ["A+", "A", "A-", "B+", "B", "B-", "C+", "C", "C-", "S"]

/-- The `failed_grades` list of `src/mcp-server/gopher_grades_server.py`. -/
def failed_grades : List String := ["F", "D+", "D", "N"]

/-- The `withdrawn_grades` list of `src/mcp-server/gopher_grades_server.py`. -/
def withdrawn_grades : List String := ["W"]

/-- The result record of `calculate_grades_stats` in
`src/mcp-server/gopher_grades_server.py`.  The early return taken when
`total_af_students == 0` omits the keys `total_graded_students`,
`withdrawal_rate` and `grade_distribution`, embedded as an outer `none`;
`withdrawal_rate`'s inner `Option` is the Python `None` value the key can
carry on the normal path. -/
structure McpStats where
  gpa : Option ℚ
  total_students : Nat
  total_af_students : Nat
  pass_rate : Option ℚ
  total_graded_students : Option Nat
  withdrawal_rate : Option (Option ℚ)
  grade_distribution : Option GradeDist
deriving DecidableEq

/-- Embedding of `round(x, 1) if x else None`: Python truthiness maps
both `None` and `0.0` to `None`. -/
def truthyRound1 : Option ℚ → Option ℚ
  | none => none
  | some q => if q = 0 then none else some (roundTo 1 q)

/-- Embedding of the body of `calculate_grades_stats` in
`src/mcp-server/gopher_grades_server.py`, applied to an actual
dictionary. -/
def calcDict (grades : GradeDist) : McpStats :=
  let total_students := totalCount grades
  let total_af_students := totalAf grades
  if total_af_students = 0 then
    { gpa := none, total_students := total_students, total_af_students := 0,
      pass_rate := none, total_graded_students := none,
      withdrawal_rate := none, grade_distribution := none }
  else
    let gpa := totalPoints grades / (total_af_students : ℚ)
    let passed := sumOver passing_grades grades
    let failed := sumOver failed_grades grades
    let total_graded_students := passed + failed
    let pass_rate : Option ℚ :=
      if 0 < total_graded_students then some ((passed : ℚ) / (total_graded_students : ℚ) * 100) else none
    let withdrawn := sumOver withdrawn_grades grades
    let withdrawal_rate : Option ℚ :=
      if 0 < total_graded_students + withdrawn
      then some ((withdrawn : ℚ) / ((total_graded_students : ℚ) + (withdrawn : ℚ)) * 100) else none
    { gpa := some (roundTo 3 gpa),
      total_students := total_students,
      total_af_students := total_af_students,
      pass_rate := truthyRound1 pass_rate,
      total_graded_students := some total_graded_students,
      withdrawal_rate := some (truthyRound1 withdrawal_rate),
      grade_distribution := some grades }

/-- Embedding of `calculate_grades_stats` in
`src/mcp-server/gopher_grades_server.py` on an arbitrary runtime
argument.  This variant has no malformed-input guard: on `None` or a
non-mapping value, `grades.values()` raises `AttributeError`, embedded as
`none`. -/
def calculate_grades_stats : PyInput → Option McpStats
  | PyInput.pynone => none
  | PyInput.nonmapping => none
  | PyInput.pydict d => some (calcDict d)

end McpServer

/-- The malformed inputs of the specification: `None`, an empty mapping,
or a non-mapping value.  These are exactly the values caught by the guard
`if not grades or not isinstance(grades, dict)`. -/
def MalformedInput (i : PyInput) : Prop :=
  i = PyInput.pynone ∨ i = PyInput.nonmapping ∨ i = PyInput.pydict []

/-- A possibly absent rational uses at most `n` decimal places: it is
absent, or an integer divided by `10 ^ n`. -/
def decimalsAtMost (n : ℕ) : Option ℚ → Prop
  | none => True
  | some q => ∃ z : ℤ, q = (z : ℚ) / 10 ^ n

/-- Lift of `decimalsAtMost` through one more level of key absence. -/
def decimalsAtMostKey (n : ℕ) : Option (Option ℚ) → Prop
  | none => True
  | some o => decimalsAtMost n o

section BasicLemmas

theorem getD_nil (g : String) : getD [] g = 0 := rfl

theorem getD_cons (k : String) (v : Nat) (t : GradeDist) (g : String) :
    getD ((k, v) :: t) g = if k = g then v else getD t g := rfl

theorem getD_eq_zero_of_not_mem : ∀ {t : GradeDist} {g : String},
    g ∉ t.map Prod.fst → getD t g = 0
  | [], _, _ => rfl
  | (k, v) :: t, g, h => by
    rw [List.map_cons, List.mem_cons] at h
    push_neg at h
    rw [getD_cons, if_neg (fun e => h.1 e.symm)]
    exact getD_eq_zero_of_not_mem h.2

theorem getD_eq_zero_of_counts_zero : ∀ {t : GradeDist} {g : String},
    (∀ p ∈ t, p.1 = g → p.2 = 0) → getD t g = 0
  | [], _, _ => rfl
  | (k, v) :: t, g, h => by
    rw [getD_cons]
    by_cases e : k = g
    · rw [if_pos e]; exact h (k, v) (List.mem_cons_self _ _) e
    · rw [if_neg e]
      exact getD_eq_zero_of_counts_zero (fun p hp => h p (List.mem_cons_of_mem _ hp))

theorem sumOver_nil (L : List String) : sumOver L [] = 0 := by
  induction L with
  | nil => rfl
  | cons x L ih => simp [sumOver, getD_nil] at ih ⊢; exact ih

theorem ne_nil_of_sumOver_pos {L : List String} {d : GradeDist}
    (h : 0 < sumOver L d) : d ≠ [] := by
  rintro rfl; rw [sumOver_nil] at h; omega

theorem totalAf_nil : totalAf [] = 0 := rfl

theorem ne_nil_of_totalAf_pos {d : GradeDist} (h : 0 < totalAf d) : d ≠ [] := by
  rintro rfl; rw [totalAf_nil] at h; omega

theorem sumOver_eq_zero {L : List String} {d : GradeDist}
    (h : ∀ g ∈ L, getD d g = 0) : sumOver L d = 0 := by
  unfold sumOver
  apply List.sum_eq_zero
  intro x hx
  rw [List.mem_map] at hx
  obtain ⟨g, hg, rfl⟩ := hx
  exact h g hg

theorem mem_gpaNames_iff (g : String) : g ∈ gpaNames ↔ (gpaMap g).isSome := by
  have h1 : (gpaMap g).isSome = (List.find? (fun p => p.1 == g) gpaTable).isSome := by
    rw [gpaMap]; cases List.find? (fun p => p.1 == g) gpaTable <;> rfl
  rw [gpaNames, List.mem_map, h1, List.find?_isSome]
  constructor
  · rintro ⟨p, hp, rfl⟩; exact ⟨p, hp, by simp⟩
  · rintro ⟨p, hp, he⟩; exact ⟨p, hp, by simpa using he⟩

theorem sum_ite_insert {M : Type} [AddCommMonoid M] (L : List String) (hL : L.Nodup)
    (g : String) (a f : String → M) (hfg : f g = 0) :
    (L.map fun x => if g = x then a x else f x).sum
      = (if g ∈ L then a g else 0) + (L.map f).sum := by
  induction L with
  | nil => simp
  | cons x L ih =>
    rw [List.nodup_cons] at hL
    by_cases hgx : g = x
    · subst hgx
      have hcongr : ∀ x' ∈ L, (if g = x' then a x' else f x') = f x' := by
        intro x' hx'
        exact if_neg (by rintro rfl; exact hL.1 hx')
      rw [List.map_cons, List.sum_cons, if_pos rfl, List.map_congr_left hcongr,
        if_pos (List.mem_cons_self g L), List.map_cons, List.sum_cons, hfg, zero_add]
    · rw [List.map_cons, List.sum_cons, if_neg hgx, ih hL.2, List.map_cons,
        List.sum_cons]
      simp only [List.mem_cons, eq_false hgx, false_or]
      exact add_left_comm _ _ _

end BasicLemmas

section StructuralLemmas

theorem gpaNames_nodup : gpaNames.Nodup := by decide

theorem totalAf_eq_sumOver : ∀ (d : GradeDist), (d.map Prod.fst).Nodup →
    totalAf d = sumOver gpaNames d
  | [], _ => by rw [totalAf_nil, sumOver_nil]
  | (g, c) :: t, hd => by
    rw [List.map_cons, List.nodup_cons] at hd
    have hgt : getD t g = 0 := getD_eq_zero_of_not_mem hd.1
    have hrec := totalAf_eq_sumOver t hd.2
    show (if (gpaMap g).isSome then c else 0) + totalAf t = sumOver gpaNames ((g, c) :: t)
    have hmap : sumOver gpaNames ((g, c) :: t)
        = (gpaNames.map fun x => if g = x then c else getD t x).sum := rfl
    rw [hmap, sum_ite_insert gpaNames gpaNames_nodup g (fun _ => c) (getD t) hgt,
      hrec]
    by_cases hs : (gpaMap g).isSome
    · rw [if_pos hs, if_pos ((mem_gpaNames_iff g).mpr hs)]; rfl
    · rw [if_neg hs, if_neg (fun hm => hs ((mem_gpaNames_iff g).mp hm))]; rfl

theorem totalPoints_cons (g : String) (c : Nat) (t : GradeDist) :
    totalPoints ((g, c) :: t) = gpaW g * (c : ℚ) + totalPoints t := by
  show (match gpaMap g with | some v => v * (c : ℚ) | none => 0) + totalPoints t = _
  cases h : gpaMap g <;> simp [gpaW, h]

theorem totalPoints_eq_sum : ∀ (d : GradeDist), (d.map Prod.fst).Nodup →
    totalPoints d = (gpaNames.map fun x => gpaW x * (getD d x : ℚ)).sum
  | [], _ => by
    rw [show totalPoints [] = 0 from rfl]
    refine (List.sum_eq_zero ?_).symm
    intro q hq
    rw [List.mem_map] at hq
    obtain ⟨x, _, rfl⟩ := hq
    rw [getD_nil]
    simp
  | (g, c) :: t, hd => by
    rw [List.map_cons, List.nodup_cons] at hd
    have hgt : getD t g = 0 := getD_eq_zero_of_not_mem hd.1
    have hrec := totalPoints_eq_sum t hd.2
    rw [totalPoints_cons, hrec]
    have hmap : (gpaNames.map fun x => gpaW x * (getD ((g, c) :: t) x : ℚ))
        = gpaNames.map fun x =>
            if g = x then gpaW x * (c : ℚ) else gpaW x * (getD t x : ℚ) := by
      apply List.map_congr_left
      intro x _
      rw [getD_cons]
      by_cases hgx : g = x
      · rw [if_pos hgx, if_pos hgx]
      · rw [if_neg hgx, if_neg hgx]
    have hfg : gpaW g * (getD t g : ℚ) = 0 := by rw [hgt]; simp
    rw [hmap, sum_ite_insert gpaNames gpaNames_nodup g
      (fun x => gpaW x * (c : ℚ)) (fun x => gpaW x * (getD t x : ℚ)) hfg]
    by_cases hm : g ∈ gpaNames
    · rw [if_pos hm]
    · rw [if_neg hm]
      have : gpaMap g = none := by
        rcases h : gpaMap g with _ | v
        · rfl
        · exact absurd ((mem_gpaNames_iff g).mpr (by rw [h]; rfl)) hm
      rw [gpaW, this]
      simp

theorem totalAf_le_totalCount : ∀ (d : GradeDist), totalAf d ≤ totalCount d
  | [] => le_refl 0
  | (g, c) :: t => by
    have := totalAf_le_totalCount t
    show (if (gpaMap g).isSome then c else 0) + totalAf t ≤ c + totalCount t
    split <;> omega

theorem sumOver_bump (L : List String) {d₁ d₂ : GradeDist} {k : Nat}
    (hA : getD d₂ "A" = getD d₁ "A" + k)
    (hoth : ∀ g, g ≠ "A" → getD d₂ g = getD d₁ g) :
    sumOver L d₂ = sumOver L d₁ + k * L.count "A" := by
  induction L with
  | nil => simp [sumOver]
  | cons x L ih =>
    simp only [sumOver, List.map_cons, List.sum_cons] at ih ⊢
    rw [List.count_cons]
    by_cases hx : x = "A"
    · subst hx
      rw [hA, ih]
      simp only [beq_self_eq_true, if_true, Nat.mul_add, Nat.mul_one]
      ring
    · rw [hoth x hx, ih]
      have hbeq : (x == "A") = false := by
        rcases Bool.eq_false_or_eq_true (x == "A") with h | h
        · exact absurd (beq_iff_eq.mp h) hx
        · exact h
      simp only [hbeq, Bool.false_eq_true, if_false, Nat.add_zero]
      ring

theorem weightedSum_bump (L : List String) (w : String → ℚ) {d₁ d₂ : GradeDist} {k : Nat}
    (hA : getD d₂ "A" = getD d₁ "A" + k)
    (hoth : ∀ g, g ≠ "A" → getD d₂ g = getD d₁ g) :
    (L.map fun x => w x * (getD d₂ x : ℚ)).sum
      = (L.map fun x => w x * (getD d₁ x : ℚ)).sum
        + (k : ℚ) * (L.map fun x => if x = "A" then w x else 0).sum := by
  induction L with
  | nil => simp
  | cons x L ih =>
    simp only [List.map_cons, List.sum_cons]
    by_cases hx : x = "A"
    · subst hx
      rw [hA, if_pos rfl, ih]
      push_cast
      ring
    · rw [hoth x hx, if_neg hx, ih]
      ring

end StructuralLemmas

section RoundingLemmas

theorem roundTo_mono {n : ℕ} {q₁ q₂ : ℚ} (h : q₁ ≤ q₂) : roundTo n q₁ ≤ roundTo n q₂ := by
  have hpow : (0 : ℚ) < 10 ^ n := by positivity
  unfold roundTo
  rw [div_le_div_iff_of_pos_right hpow]
  apply Int.cast_le.mpr
  rw [round_eq, round_eq]
  exact Int.floor_mono (by nlinarith)

theorem roundTo_decimals (n : ℕ) (q : ℚ) : ∃ z : ℤ, roundTo n q = (z : ℚ) / 10 ^ n :=
  ⟨round (q * 10 ^ n), rfl⟩

theorem decimalsAtMost_map (n : ℕ) (o : Option ℚ) :
    decimalsAtMost n (o.map (roundTo n)) := by
  cases o with
  | none => trivial
  | some q => exact roundTo_decimals n q

theorem decimalsAtMost_truthy (o : Option ℚ) :
    decimalsAtMost 1 (McpServer.truthyRound1 o) := by
  cases o with
  | none => trivial
  | some q =>
    rw [McpServer.truthyRound1]
    by_cases h : q = 0
    · rw [if_pos h]; trivial
    · rw [if_neg h]; exact roundTo_decimals 1 q

end RoundingLemmas

section GpaBoundLemmas

theorem gpaMap_le_four {g : String} {v : ℚ} (h : gpaMap g = some v) (hg : g ≠ "A+") :
    v ≤ 4 := by
  rw [gpaMap] at h
  rcases hf : gpaTable.find? (fun p => p.1 == g) with _ | p
  · rw [hf] at h; exact absurd h (by simp)
  · rw [hf] at h
    have hv : p.2 = v := by simpa using h
    have hmem : p ∈ gpaTable := List.mem_of_find?_eq_some hf
    have hkey : p.1 = g := by
      have := List.find?_some hf
      simpa using this
    rw [gpaTable] at hmem
    simp only [List.mem_cons, List.not_mem_nil, or_false] at hmem
    rcases hmem with rfl | rfl | rfl | rfl | rfl | rfl | rfl | rfl | rfl | rfl | rfl | rfl | rfl
    all_goals try exact absurd hkey.symm hg
    all_goals rw [← hv]
    all_goals try norm_num

theorem totalPoints_le_four : ∀ (d : GradeDist), (∀ p ∈ d, p.1 = "A+" → p.2 = 0) →
    totalPoints d ≤ 4 * (totalAf d : ℚ)
  | [], _ => by rw [show totalPoints [] = 0 from rfl, totalAf_nil]; norm_num
  | (g, c) :: t, h => by
    have ih := totalPoints_le_four t (fun p hp => h p (List.mem_cons_of_mem _ hp))
    rw [totalPoints_cons,
      show totalAf ((g, c) :: t) = (if (gpaMap g).isSome then c else 0) + totalAf t from rfl]
    rcases hg : gpaMap g with _ | v
    · rw [gpaW, hg]
      simp only [Option.getD_none, zero_mul, zero_add, hg]
      simp only [Option.isSome_none, Bool.false_eq_true, if_false, zero_add]
      exact ih
    · rw [gpaW, hg]
      simp only [Option.getD_some, hg, Option.isSome_some, if_true]
      push_cast
      by_cases hga : g = "A+"
      · have hc : c = 0 := h (g, c) (List.mem_cons_self _ _) hga
        subst hc
        push_cast
        linarith
      · have hv4 : v ≤ 4 := gpaMap_le_four hg hga
        have hc : (0 : ℚ) ≤ (c : ℚ) := by positivity
        nlinarith

end GpaBoundLemmas

section MoreLemmas

theorem sumOver_append (L₁ L₂ : List String) (d : GradeDist) :
    sumOver (L₁ ++ L₂) d = sumOver L₁ d + sumOver L₂ d := by
  rw [sumOver, sumOver, sumOver, List.map_append, List.sum_append]

theorem sumOver_cons_notmem {L : List String} {g : String} (c : Nat) (d : GradeDist)
    (h : g ∉ L) : sumOver L ((g, c) :: d) = sumOver L d := by
  rw [sumOver, sumOver]
  apply congrArg
  apply List.map_congr_left
  intro x hx
  rw [getD_cons, if_neg (by rintro rfl; exact h hx)]

theorem totalCount_cons (g : String) (c : Nat) (d : GradeDist) :
    totalCount ((g, c) :: d) = c + totalCount d := by
  rw [totalCount, totalCount, List.map_cons, List.sum_cons]

theorem totalCount_eq_zero {d : GradeDist} (h : ∀ p ∈ d, p.2 = 0) :
    totalCount d = 0 := by
  rw [totalCount]
  apply List.sum_eq_zero
  intro x hx
  rw [List.mem_map] at hx
  obtain ⟨p, hp, rfl⟩ := hx
  exact h p hp

theorem totalCount_eq_getD_of_only : ∀ (d : GradeDist), (d.map Prod.fst).Nodup →
    ∀ (g : String), (∀ p ∈ d, p.1 ≠ g → p.2 = 0) → totalCount d = getD d g
  | [], _, _, _ => rfl
  | (k, v) :: t, hnd, g, honly => by
    rw [List.map_cons, List.nodup_cons] at hnd
    rw [totalCount_cons, getD_cons]
    by_cases hkg : k = g
    · rw [if_pos hkg]
      have ht : totalCount t = 0 := by
        apply totalCount_eq_zero
        intro p hp
        apply honly p (List.mem_cons_of_mem _ hp)
        intro hpg
        apply hnd.1
        have hmem : p.1 ∈ t.map Prod.fst := List.mem_map_of_mem Prod.fst hp
        rw [hpg, ← hkg] at hmem
        exact hmem
      omega
    · rw [if_neg hkg]
      have hv : v = 0 := honly (k, v) (List.mem_cons_self _ _) hkg
      rw [hv, totalCount_eq_getD_of_only t hnd.2 g
        (fun p hp => honly p (List.mem_cons_of_mem _ hp))]
      omega

theorem roundTo_hundred : roundTo 1 100 = 100 := by
  rw [roundTo, round_eq]
  norm_num [Int.floor_eq_iff]

end MoreLemmas

section ClaimC1

/-- Claim C1: on every malformed input (None, an empty mapping, or a
non-mapping value) the statistics engine `calculate_grades_stats` of
`src/server/utils.py` does not fail: it returns a record whose derived
rates (average GPA, pass rate, withdrawal rate and all five band rates)
are all absent, whose three counts are all zero, and whose grade
distribution is echoed back empty. -/
theorem C1_malformed_input_degrades (i : PyInput) (h : MalformedInput i) :
    (ServerUtils.calculate_grades_stats i).average_gpa = none ∧
    (ServerUtils.calculate_grades_stats i).pass_rate = none ∧
    (ServerUtils.calculate_grades_stats i).withdrawal_rate = none ∧
    (ServerUtils.calculate_grades_stats i).a_rate = none ∧
    (ServerUtils.calculate_grades_stats i).b_rate = none ∧
    (ServerUtils.calculate_grades_stats i).c_rate = none ∧
    (ServerUtils.calculate_grades_stats i).d_rate = none ∧
    (ServerUtils.calculate_grades_stats i).f_rate = none ∧
    (ServerUtils.calculate_grades_stats i).total_students = 0 ∧
    (ServerUtils.calculate_grades_stats i).total_graded_students = 0 ∧
    (ServerUtils.calculate_grades_stats i).total_af_students = 0 ∧
    (ServerUtils.calculate_grades_stats i).grade_distribution = some [] := by
  rcases h with rfl | rfl | rfl <;>
    simp [ServerUtils.calculate_grades_stats, ServerUtils.emptyStats]

/-- Witness for claim C1, at the concrete malformed input None. -/
theorem C1_witness :
    MalformedInput PyInput.pynone ∧
    (ServerUtils.calculate_grades_stats PyInput.pynone).average_gpa = none ∧
    (ServerUtils.calculate_grades_stats PyInput.pynone).total_students = 0 := by
  have h := C1_malformed_input_degrades PyInput.pynone (Or.inl rfl)
  exact ⟨Or.inl rfl, h.1, h.2.2.2.2.2.2.2.2.1⟩

end ClaimC1

section ClaimC2

/-- Claim C2: for every grade distribution, the reported
`total_students` equals the sum of all counts in the distribution, all
grade labels included, in both implementations of
`calculate_grades_stats`. -/
theorem C2_total_students_is_sum (d : GradeDist) :
    (ServerUtils.calculate_grades_stats (PyInput.pydict d)).total_students
        = (d.map Prod.snd).sum ∧
    (McpServer.calcDict d).total_students = (d.map Prod.snd).sum := by
  constructor
  · by_cases hd : d = []
    · subst hd; simp [ServerUtils.calculate_grades_stats, ServerUtils.emptyStats]
    · simp [ServerUtils.calculate_grades_stats, hd, ServerUtils.computeStats, totalCount]
  · simp only [McpServer.calcDict]
    split <;> rfl

end ClaimC2

section ClaimC3

/-- Counterexample to claim C3: on the well-formed distribution
`[("A", 1)]` the comprehensive implementation returns a record with no
`grade_distribution` field at all, so the input is not echoed back
verbatim. -/
theorem C3_counterexample :
    (ServerUtils.calculate_grades_stats (PyInput.pydict [("A", 1)])).grade_distribution
        = none ∧
    (ServerUtils.calculate_grades_stats (PyInput.pydict [("A", 1)])).grade_distribution
        ≠ some [("A", 1)] := by
  constructor
  · simp [ServerUtils.calculate_grades_stats, ServerUtils.computeStats]
  · simp [ServerUtils.calculate_grades_stats, ServerUtils.computeStats]

/-- Claim C3 as amended: the MCP implementation echoes the input
distribution verbatim exactly when the distribution has at least one A-F
student, while the comprehensive implementation attaches a
`grade_distribution` field (always empty) only in its malformed-input
branch. -/
theorem C3_amended_echo (d : GradeDist) :
    ((McpServer.calcDict d).grade_distribution
        = if totalAf d = 0 then none else some d) ∧
    ((ServerUtils.calculate_grades_stats (PyInput.pydict d)).grade_distribution
        = if d = [] then some [] else none) := by
  constructor
  · simp only [McpServer.calcDict]
    split <;> rfl
  · by_cases hd : d = []
    · subst hd; simp [ServerUtils.calculate_grades_stats, ServerUtils.emptyStats]
    · simp [ServerUtils.calculate_grades_stats, hd, ServerUtils.computeStats]

end ClaimC3

section ClaimC5

/-- Claim C5: on a distribution whose only positive count is on the
withdrawal label W (and which does contain withdrawals), the
comprehensive `calculate_grades_stats` reports no average GPA, no pass
rate, a withdrawal rate of exactly 100 (total-population denominator
policy), and no band rates. -/
theorem C5_withdrawal_only (d : GradeDist) (hnd : (d.map Prod.fst).Nodup)
    (honly : ∀ p ∈ d, p.1 ≠ "W" → p.2 = 0) (hpos : 0 < getD d "W") :
    (ServerUtils.calculate_grades_stats (PyInput.pydict d)).average_gpa = none ∧
    (ServerUtils.calculate_grades_stats (PyInput.pydict d)).pass_rate = none ∧
    (ServerUtils.calculate_grades_stats (PyInput.pydict d)).withdrawal_rate = some 100 ∧
    (ServerUtils.calculate_grades_stats (PyInput.pydict d)).a_rate = none ∧
    (ServerUtils.calculate_grades_stats (PyInput.pydict d)).b_rate = none ∧
    (ServerUtils.calculate_grades_stats (PyInput.pydict d)).c_rate = none ∧
    (ServerUtils.calculate_grades_stats (PyInput.pydict d)).d_rate = none ∧
    (ServerUtils.calculate_grades_stats (PyInput.pydict d)).f_rate = none := by
  have hne : d ≠ [] := by rintro rfl; rw [getD_nil] at hpos; omega
  have hzero : ∀ g : String, g ≠ "W" → getD d g = 0 := by
    intro g hg
    apply getD_eq_zero_of_counts_zero
    intro p hp hpg
    exact honly p hp (by rw [hpg]; exact hg)
  have hpass : sumOver ServerUtils.passing_grades d = 0 :=
    sumOver_eq_zero (fun g hg => hzero g
      ((by decide : ∀ x ∈ ServerUtils.passing_grades, x ≠ "W") g hg))
  have hfail : sumOver ServerUtils.failing_grades d = 0 :=
    sumOver_eq_zero (fun g hg => hzero g
      ((by decide : ∀ x ∈ ServerUtils.failing_grades, x ≠ "W") g hg))
  have htaf : totalAf d = 0 := by
    rw [totalAf_eq_sumOver d hnd]
    exact sumOver_eq_zero (fun g hg => hzero g
      ((by decide : ∀ x ∈ gpaNames, x ≠ "W") g hg))
  have hcount : totalCount d = getD d "W" :=
    totalCount_eq_getD_of_only d hnd "W" honly
  have hwr : sumOver ServerUtils.withdrawn_grades d = getD d "W" := by
    simp [sumOver, ServerUtils.withdrawn_grades]
  have hwq : ((getD d "W" : ℕ) : ℚ) ≠ 0 := by
    exact_mod_cast Nat.pos_iff_ne_zero.mp hpos
  refine ⟨?_, ?_, ?_, ?_, ?_, ?_, ?_, ?_⟩ <;>
    simp only [ServerUtils.calculate_grades_stats, if_neg hne, ServerUtils.computeStats,
      hpass, hfail, htaf, hcount, hwr, Nat.add_zero, Nat.zero_add, lt_irrefl,
      if_false, Option.map_none', if_pos hpos, Option.map_some']
  · rw [div_self hwq, one_mul, roundTo_hundred]

end ClaimC5

section ClaimC6

/-- Claim C6: in the comprehensive `calculate_grades_stats`, every rate
field is absent exactly when its denominator is zero (pass rate and band
rates against graded students, withdrawal rate against all students);
whenever the denominator is positive the rate is a definite number, so a
zero ratio such as the pass rate of the all-failing distribution
`[("F", 2)]` is returned as 0 and not as absent. -/
theorem C6_rate_absent_iff_denominator_zero :
    (∀ i : PyInput,
      ((ServerUtils.calculate_grades_stats i).pass_rate = none ↔
        (ServerUtils.calculate_grades_stats i).total_graded_students = 0) ∧
      ((ServerUtils.calculate_grades_stats i).withdrawal_rate = none ↔
        (ServerUtils.calculate_grades_stats i).total_students = 0) ∧
      ((ServerUtils.calculate_grades_stats i).a_rate = none ↔
        (ServerUtils.calculate_grades_stats i).total_graded_students = 0) ∧
      ((ServerUtils.calculate_grades_stats i).b_rate = none ↔
        (ServerUtils.calculate_grades_stats i).total_graded_students = 0) ∧
      ((ServerUtils.calculate_grades_stats i).c_rate = none ↔
        (ServerUtils.calculate_grades_stats i).total_graded_students = 0) ∧
      ((ServerUtils.calculate_grades_stats i).d_rate = none ↔
        (ServerUtils.calculate_grades_stats i).total_graded_students = 0) ∧
      ((ServerUtils.calculate_grades_stats i).f_rate = none ↔
        (ServerUtils.calculate_grades_stats i).total_graded_students = 0)) ∧
    (ServerUtils.calculate_grades_stats (PyInput.pydict [("F", 2)])).pass_rate = some 0 := by
  constructor
  · intro i
    cases i with
    | pynone => simp [ServerUtils.calculate_grades_stats, ServerUtils.emptyStats]
    | nonmapping => simp [ServerUtils.calculate_grades_stats, ServerUtils.emptyStats]
    | pydict d =>
      by_cases hd : d = []
      · subst hd; simp [ServerUtils.calculate_grades_stats, ServerUtils.emptyStats]
      · have hcalc : ServerUtils.calculate_grades_stats (PyInput.pydict d)
            = ServerUtils.computeStats d := by
          simp [ServerUtils.calculate_grades_stats, hd]
        rw [hcalc]
        refine ⟨?_, ?_, ?_, ?_, ?_, ?_, ?_⟩
        · by_cases h : 0 < sumOver ServerUtils.passing_grades d
              + sumOver ServerUtils.failing_grades d <;>
            simp [ServerUtils.computeStats, h] <;> omega
        · by_cases h : 0 < totalCount d <;>
            simp [ServerUtils.computeStats, h] <;> omega
        · by_cases h : 0 < sumOver ServerUtils.passing_grades d
              + sumOver ServerUtils.failing_grades d <;>
            simp [ServerUtils.computeStats, h] <;> omega
        · by_cases h : 0 < sumOver ServerUtils.passing_grades d
              + sumOver ServerUtils.failing_grades d <;>
            simp [ServerUtils.computeStats, h] <;> omega
        · by_cases h : 0 < sumOver ServerUtils.passing_grades d
              + sumOver ServerUtils.failing_grades d <;>
            simp [ServerUtils.computeStats, h] <;> omega
        · by_cases h : 0 < sumOver ServerUtils.passing_grades d
              + sumOver ServerUtils.failing_grades d <;>
            simp [ServerUtils.computeStats, h] <;> omega
        · by_cases h : 0 < sumOver ServerUtils.passing_grades d
              + sumOver ServerUtils.failing_grades d <;>
            simp [ServerUtils.computeStats, h] <;> omega
  · simp [ServerUtils.calculate_grades_stats, ServerUtils.computeStats, sumOver, getD,
      totalCount, totalAf, totalPoints, gpaMap, gpaTable, ServerUtils.passing_grades,
      ServerUtils.failing_grades, ServerUtils.withdrawn_grades, roundTo, round_eq]
    norm_num

end ClaimC6

section ClaimC5Witness

/-- Witness for claim C5, at the concrete distribution `[("W", 3)]`. -/
theorem C5_witness :
    (ServerUtils.calculate_grades_stats (PyInput.pydict [("W", 3)])).average_gpa = none ∧
    (ServerUtils.calculate_grades_stats (PyInput.pydict [("W", 3)])).pass_rate = none ∧
    (ServerUtils.calculate_grades_stats (PyInput.pydict [("W", 3)])).withdrawal_rate
        = some 100 := by
  have h := C5_withdrawal_only [("W", 3)] (by decide) (by decide) (by decide)
  exact ⟨h.1, h.2.1, h.2.2.1⟩

end ClaimC5Witness

section ClaimC7

/-- Counterexample to claim C7: the label I is unknown to the
comprehensive engine (absent from the GPA map and from the passing,
failing and withdrawn sets), yet adding one student with grade I to the
distribution `[("W", 1)]` changes the reported withdrawal rate from 100
to 50, because the unknown label inflates the total-student denominator. -/
theorem C7_counterexample :
    gpaMap "I" = none ∧
    "I" ∉ ServerUtils.passing_grades ∧
    "I" ∉ ServerUtils.failing_grades ∧
    "I" ∉ ServerUtils.withdrawn_grades ∧
    (ServerUtils.calculate_grades_stats
        (PyInput.pydict [("W", 1)])).withdrawal_rate = some 100 ∧
    (ServerUtils.calculate_grades_stats
        (PyInput.pydict [("I", 1), ("W", 1)])).withdrawal_rate = some 50 ∧
    (50 : ℚ) ≠ 100 := by
  refine ⟨by decide, by decide, by decide, by decide, ?_, ?_, by norm_num⟩
  · simp [ServerUtils.calculate_grades_stats, ServerUtils.computeStats, sumOver, getD,
      totalCount, totalAf, totalPoints, gpaMap, gpaTable,
      ServerUtils.withdrawn_grades, roundTo, round_eq]
    norm_num [Int.floor_eq_iff]
  · simp [ServerUtils.calculate_grades_stats, ServerUtils.computeStats, sumOver, getD,
      totalCount, totalAf, totalPoints, gpaMap, gpaTable,
      ServerUtils.withdrawn_grades, roundTo, round_eq]
    norm_num [Int.floor_eq_iff]

/-- Claim C7 as amended: a grade label outside the GPA map and outside
the passing, failing and withdrawn sets contributes its count to
`total_students` (and hence to the withdrawal-rate denominator, which is
why the withdrawal rate is excluded here) but leaves the average GPA,
the A-F and graded-student counts, the pass rate, every band rate and
every band count unchanged. -/
theorem C7_amended_unknown_label (d : GradeDist) (g : String) (c : Nat)
    (hg : gpaMap g = none)
    (hp : g ∉ ServerUtils.passing_grades)
    (hf : g ∉ ServerUtils.failing_grades)
    (hw : g ∉ ServerUtils.withdrawn_grades)
    (hne : d ≠ []) :
    (ServerUtils.calculate_grades_stats (PyInput.pydict ((g, c) :: d))).average_gpa
        = (ServerUtils.calculate_grades_stats (PyInput.pydict d)).average_gpa ∧
    (ServerUtils.calculate_grades_stats (PyInput.pydict ((g, c) :: d))).total_af_students
        = (ServerUtils.calculate_grades_stats (PyInput.pydict d)).total_af_students ∧
    (ServerUtils.calculate_grades_stats (PyInput.pydict ((g, c) :: d))).total_graded_students
        = (ServerUtils.calculate_grades_stats (PyInput.pydict d)).total_graded_students ∧
    (ServerUtils.calculate_grades_stats (PyInput.pydict ((g, c) :: d))).pass_rate
        = (ServerUtils.calculate_grades_stats (PyInput.pydict d)).pass_rate ∧
    (ServerUtils.calculate_grades_stats (PyInput.pydict ((g, c) :: d))).a_rate
        = (ServerUtils.calculate_grades_stats (PyInput.pydict d)).a_rate ∧
    (ServerUtils.calculate_grades_stats (PyInput.pydict ((g, c) :: d))).b_rate
        = (ServerUtils.calculate_grades_stats (PyInput.pydict d)).b_rate ∧
    (ServerUtils.calculate_grades_stats (PyInput.pydict ((g, c) :: d))).c_rate
        = (ServerUtils.calculate_grades_stats (PyInput.pydict d)).c_rate ∧
    (ServerUtils.calculate_grades_stats (PyInput.pydict ((g, c) :: d))).d_rate
        = (ServerUtils.calculate_grades_stats (PyInput.pydict d)).d_rate ∧
    (ServerUtils.calculate_grades_stats (PyInput.pydict ((g, c) :: d))).f_rate
        = (ServerUtils.calculate_grades_stats (PyInput.pydict d)).f_rate ∧
    (ServerUtils.calculate_grades_stats (PyInput.pydict ((g, c) :: d))).grade_counts
        = (ServerUtils.calculate_grades_stats (PyInput.pydict d)).grade_counts ∧
    (ServerUtils.calculate_grades_stats (PyInput.pydict ((g, c) :: d))).total_students
        = c + (ServerUtils.calculate_grades_stats (PyInput.pydict d)).total_students := by
  have hnames : g ∉ gpaNames := by
    intro hm
    have := (mem_gpaNames_iff g).mp hm
    rw [hg] at this
    exact absurd this (by simp)
  have ha : g ∉ ServerUtils.a_grades :=
    fun hm => hnames ((by decide : ∀ x ∈ ServerUtils.a_grades, x ∈ gpaNames) g hm)
  have hb : g ∉ ServerUtils.b_grades :=
    fun hm => hnames ((by decide : ∀ x ∈ ServerUtils.b_grades, x ∈ gpaNames) g hm)
  have hc : g ∉ ServerUtils.c_grades :=
    fun hm => hnames ((by decide : ∀ x ∈ ServerUtils.c_grades, x ∈ gpaNames) g hm)
  have hd : g ∉ ServerUtils.d_grades :=
    fun hm => hnames ((by decide : ∀ x ∈ ServerUtils.d_grades, x ∈ gpaNames) g hm)
  have hf5 : g ∉ ServerUtils.f_grades :=
    fun hm => hnames ((by decide : ∀ x ∈ ServerUtils.f_grades, x ∈ gpaNames) g hm)
  have htaf : totalAf ((g, c) :: d) = totalAf d := by
    rw [show totalAf ((g, c) :: d)
        = (if (gpaMap g).isSome then c else 0) + totalAf d from rfl, hg]
    simp
  have hpts : totalPoints ((g, c) :: d) = totalPoints d := by
    rw [totalPoints_cons, gpaW, hg]
    simp
  have hcne : (g, c) :: d ≠ [] := List.cons_ne_nil _ _
  refine ⟨?_, ?_, ?_, ?_, ?_, ?_, ?_, ?_, ?_, ?_, ?_⟩ <;>
    simp only [ServerUtils.calculate_grades_stats, if_neg hne, if_neg hcne,
      ServerUtils.computeStats, htaf, hpts, totalCount_cons,
      sumOver_cons_notmem c d hp, sumOver_cons_notmem c d hf,
      sumOver_cons_notmem c d hw, sumOver_cons_notmem c d ha,
      sumOver_cons_notmem c d hb, sumOver_cons_notmem c d hc,
      sumOver_cons_notmem c d hd, sumOver_cons_notmem c d hf5]

/-- Witness for the amended claim C7, adding five students with the
unknown label I to the distribution `[("W", 1)]`. -/
theorem C7_amended_witness :
    (ServerUtils.calculate_grades_stats
        (PyInput.pydict [("I", 5), ("W", 1)])).pass_rate
      = (ServerUtils.calculate_grades_stats (PyInput.pydict [("W", 1)])).pass_rate ∧
    (ServerUtils.calculate_grades_stats
        (PyInput.pydict [("I", 5), ("W", 1)])).total_students
      = 5 + (ServerUtils.calculate_grades_stats
        (PyInput.pydict [("W", 1)])).total_students := by
  have h := C7_amended_unknown_label [("W", 1)] "I" 5 (by decide) (by decide)
    (by decide) (by decide) (by decide)
  exact ⟨h.2.2.2.1, h.2.2.2.2.2.2.2.2.2.2⟩

end ClaimC7

section ClaimC8

/-- Claim C8: the two `calculate_grades_stats` implementations are not
extensionally equal.  On `[("A", 1), ("D", 1)]` the comprehensive
implementation (D counted as passing) reports a pass rate of 100 while
the MCP implementation (D counted as failing) reports 50; on
`[("A", 1), ("I", 2), ("W", 1)]` their withdrawal-rate denominators
(all students versus graded students plus withdrawals) give 25 versus
50; and the classification lists differ exactly as claimed on S, P and
the D grades. -/
theorem C8_implementations_diverge :
    (ServerUtils.calculate_grades_stats
        (PyInput.pydict [("A", 1), ("D", 1)])).pass_rate = some 100 ∧
    (McpServer.calcDict [("A", 1), ("D", 1)]).pass_rate = some 50 ∧
    (ServerUtils.calculate_grades_stats
        (PyInput.pydict [("A", 1), ("I", 2), ("W", 1)])).withdrawal_rate = some 25 ∧
    (McpServer.calcDict [("A", 1), ("I", 2), ("W", 1)]).withdrawal_rate
        = some (some 50) ∧
    "P" ∈ ServerUtils.passing_grades ∧ "P" ∉ McpServer.passing_grades ∧
    "S" ∈ ServerUtils.passing_grades ∧ "S" ∈ McpServer.passing_grades ∧
    "D+" ∈ ServerUtils.passing_grades ∧ "D" ∈ ServerUtils.passing_grades ∧
    "D-" ∈ ServerUtils.passing_grades ∧
    "D+" ∈ McpServer.failed_grades ∧ "D" ∈ McpServer.failed_grades ∧
    "D-" ∉ McpServer.failed_grades ∧ "D-" ∉ McpServer.passing_grades := by
  refine ⟨?_, ?_, ?_, ?_, by decide, by decide, by decide, by decide, by decide,
    by decide, by decide, by decide, by decide, by decide, by decide⟩
  · simp [ServerUtils.calculate_grades_stats, ServerUtils.computeStats, sumOver, getD,
      totalCount, totalAf, totalPoints, gpaMap, gpaTable, ServerUtils.passing_grades,
      ServerUtils.failing_grades, ServerUtils.withdrawn_grades, roundTo, round_eq]
    norm_num [Int.floor_eq_iff]
  · simp [McpServer.calcDict, McpServer.truthyRound1, sumOver, getD,
      totalCount, totalAf, totalPoints, gpaMap, gpaTable, McpServer.passing_grades,
      McpServer.failed_grades, McpServer.withdrawn_grades, roundTo, round_eq]
    norm_num [Int.floor_eq_iff]
  · simp [ServerUtils.calculate_grades_stats, ServerUtils.computeStats, sumOver, getD,
      totalCount, totalAf, totalPoints, gpaMap, gpaTable, ServerUtils.passing_grades,
      ServerUtils.failing_grades, ServerUtils.withdrawn_grades, roundTo, round_eq]
    norm_num [Int.floor_eq_iff]
  · simp [McpServer.calcDict, McpServer.truthyRound1, sumOver, getD,
      totalCount, totalAf, totalPoints, gpaMap, gpaTable, McpServer.passing_grades,
      McpServer.failed_grades, McpServer.withdrawn_grades, roundTo, round_eq]
    norm_num [Int.floor_eq_iff]

end ClaimC8

section ClaimC9

/-- Claim C9: every percentage field either implementation returns is
rounded to exactly one decimal place (it is an integer divided by ten),
and every reported average GPA is rounded to exactly three decimal
places (an integer divided by one thousand). -/
theorem C9_rounding_decimals :
    (∀ i : PyInput,
      decimalsAtMost 3 (ServerUtils.calculate_grades_stats i).average_gpa ∧
      decimalsAtMost 1 (ServerUtils.calculate_grades_stats i).pass_rate ∧
      decimalsAtMost 1 (ServerUtils.calculate_grades_stats i).withdrawal_rate ∧
      decimalsAtMost 1 (ServerUtils.calculate_grades_stats i).a_rate ∧
      decimalsAtMost 1 (ServerUtils.calculate_grades_stats i).b_rate ∧
      decimalsAtMost 1 (ServerUtils.calculate_grades_stats i).c_rate ∧
      decimalsAtMost 1 (ServerUtils.calculate_grades_stats i).d_rate ∧
      decimalsAtMost 1 (ServerUtils.calculate_grades_stats i).f_rate) ∧
    (∀ d : GradeDist,
      decimalsAtMost 3 (McpServer.calcDict d).gpa ∧
      decimalsAtMost 1 (McpServer.calcDict d).pass_rate ∧
      decimalsAtMostKey 1 (McpServer.calcDict d).withdrawal_rate) := by
  constructor
  · intro i
    have hempty :
        decimalsAtMost 3 ServerUtils.emptyStats.average_gpa ∧
        decimalsAtMost 1 ServerUtils.emptyStats.pass_rate ∧
        decimalsAtMost 1 ServerUtils.emptyStats.withdrawal_rate ∧
        decimalsAtMost 1 ServerUtils.emptyStats.a_rate ∧
        decimalsAtMost 1 ServerUtils.emptyStats.b_rate ∧
        decimalsAtMost 1 ServerUtils.emptyStats.c_rate ∧
        decimalsAtMost 1 ServerUtils.emptyStats.d_rate ∧
        decimalsAtMost 1 ServerUtils.emptyStats.f_rate :=
      ⟨trivial, trivial, trivial, trivial, trivial, trivial, trivial, trivial⟩
    cases i with
    | pynone => exact hempty
    | nonmapping => exact hempty
    | pydict d =>
      by_cases hd : d = []
      · subst hd
        exact hempty
      · have hcalc : ServerUtils.calculate_grades_stats (PyInput.pydict d)
            = ServerUtils.computeStats d := by
          simp [ServerUtils.calculate_grades_stats, hd]
        rw [hcalc]
        exact ⟨decimalsAtMost_map 3 _, decimalsAtMost_map 1 _, decimalsAtMost_map 1 _,
          decimalsAtMost_map 1 _, decimalsAtMost_map 1 _, decimalsAtMost_map 1 _,
          decimalsAtMost_map 1 _, decimalsAtMost_map 1 _⟩
  · intro d
    by_cases h0 : totalAf d = 0
    · have hcalc : McpServer.calcDict d =
          { gpa := none, total_students := totalCount d, total_af_students := 0,
            pass_rate := none, total_graded_students := none,
            withdrawal_rate := none, grade_distribution := none } := by
        simp [McpServer.calcDict, h0]
      rw [hcalc]
      exact ⟨trivial, trivial, trivial⟩
    · have hcalc : McpServer.calcDict d =
          { gpa := some (roundTo 3 (totalPoints d / (totalAf d : ℚ))),
            total_students := totalCount d,
            total_af_students := totalAf d,
            pass_rate := McpServer.truthyRound1
              (if 0 < sumOver McpServer.passing_grades d
                  + sumOver McpServer.failed_grades d
              then some ((sumOver McpServer.passing_grades d : ℚ)
                / ((sumOver McpServer.passing_grades d
                    + sumOver McpServer.failed_grades d : ℕ) : ℚ) * 100)
              else none),
            total_graded_students := some (sumOver McpServer.passing_grades d
              + sumOver McpServer.failed_grades d),
            withdrawal_rate := some (McpServer.truthyRound1
              (if 0 < sumOver McpServer.passing_grades d
                  + sumOver McpServer.failed_grades d
                  + sumOver McpServer.withdrawn_grades d
              then some ((sumOver McpServer.withdrawn_grades d : ℚ)
                / (((sumOver McpServer.passing_grades d
                    + sumOver McpServer.failed_grades d : ℕ) : ℚ)
                  + ((sumOver McpServer.withdrawn_grades d : ℕ) : ℚ)) * 100)
              else none)),
            grade_distribution := some d } := by
        simp [McpServer.calcDict, h0]
      rw [hcalc]
      exact ⟨roundTo_decimals 3 _, decimalsAtMost_truthy _, decimalsAtMost_truthy _⟩

end ClaimC9

section ClaimC10

/-- Claim C10: for every well-formed distribution (distinct keys,
nonempty so that the main path runs), the comprehensive result satisfies
the counting identities: the five band counts sum to the A-F student
count, passed plus failed equals the graded-student count, and the A-F
count never exceeds the total student count. -/
theorem C10_counting_identities (d : GradeDist) (hnd : (d.map Prod.fst).Nodup)
    (hne : d ≠ []) :
    ∃ gc : ServerUtils.GradeCounts,
      (ServerUtils.calculate_grades_stats (PyInput.pydict d)).grade_counts = some gc ∧
      gc.a_count + gc.b_count + gc.c_count + gc.d_count + gc.f_count
        = (ServerUtils.calculate_grades_stats (PyInput.pydict d)).total_af_students ∧
      gc.passed_count + gc.failed_count
        = (ServerUtils.calculate_grades_stats (PyInput.pydict d)).total_graded_students ∧
      (ServerUtils.calculate_grades_stats (PyInput.pydict d)).total_af_students
        ≤ (ServerUtils.calculate_grades_stats (PyInput.pydict d)).total_students := by
  have hcalc : ServerUtils.calculate_grades_stats (PyInput.pydict d)
      = ServerUtils.computeStats d := by
    simp [ServerUtils.calculate_grades_stats, hne]
  rw [hcalc]
  refine ⟨_, rfl, ?_, rfl, totalAf_le_totalCount d⟩
  show sumOver ServerUtils.a_grades d + sumOver ServerUtils.b_grades d
      + sumOver ServerUtils.c_grades d + sumOver ServerUtils.d_grades d
      + sumOver ServerUtils.f_grades d = totalAf d
  rw [totalAf_eq_sumOver d hnd,
    show gpaNames = ServerUtils.a_grades ++ ServerUtils.b_grades ++ ServerUtils.c_grades
      ++ ServerUtils.d_grades ++ ServerUtils.f_grades from rfl,
    sumOver_append, sumOver_append, sumOver_append, sumOver_append]

/-- Witness for claim C10, at the concrete distribution
`[("A", 2), ("W", 1)]`. -/
theorem C10_witness :
    ∃ gc : ServerUtils.GradeCounts,
      (ServerUtils.calculate_grades_stats
        (PyInput.pydict [("A", 2), ("W", 1)])).grade_counts = some gc ∧
      gc.a_count + gc.b_count + gc.c_count + gc.d_count + gc.f_count
        = (ServerUtils.calculate_grades_stats
            (PyInput.pydict [("A", 2), ("W", 1)])).total_af_students ∧
      gc.passed_count + gc.failed_count
        = (ServerUtils.calculate_grades_stats
            (PyInput.pydict [("A", 2), ("W", 1)])).total_graded_students ∧
      (ServerUtils.calculate_grades_stats
          (PyInput.pydict [("A", 2), ("W", 1)])).total_af_students
        ≤ (ServerUtils.calculate_grades_stats
            (PyInput.pydict [("A", 2), ("W", 1)])).total_students :=
  C10_counting_identities [("A", 2), ("W", 1)] (by decide) (by decide)

end ClaimC10

section ClaimC4

/-- Counterexample to claim C4: increasing the count of A by one in the
distribution `[("A+", 1)]` (holding every other grade fixed) strictly
decreases the reported average GPA, from 4.333 to 4.167, because A
students pull the average below the A+ value. -/
theorem C4_counterexample :
    getD [("A+", 1), ("A", 1)] "A" = getD [("A+", 1)] "A" + 1 ∧
    (∀ g : String, g ≠ "A" → getD [("A+", 1), ("A", 1)] g = getD [("A+", 1)] g) ∧
    (ServerUtils.calculate_grades_stats (PyInput.pydict [("A+", 1)])).average_gpa
        = some (4333 / 1000) ∧
    (ServerUtils.calculate_grades_stats
        (PyInput.pydict [("A+", 1), ("A", 1)])).average_gpa = some (4167 / 1000) ∧
    (4167 / 1000 : ℚ) < 4333 / 1000 := by
  refine ⟨by decide, ?_, ?_, ?_, by norm_num⟩
  · intro g hg
    show (if "A+" = g then 1 else if "A" = g then 1 else getD [] g)
        = (if "A+" = g then 1 else getD [] g)
    by_cases h1 : "A+" = g
    · rw [if_pos h1, if_pos h1]
    · rw [if_neg h1, if_neg h1,
        if_neg (show ¬("A" = g) from fun h => hg h.symm)]
  · simp [ServerUtils.calculate_grades_stats, ServerUtils.computeStats, sumOver, getD,
      totalCount, totalAf, totalPoints, gpaMap, gpaTable, roundTo, round_eq]
    norm_num [Int.floor_eq_iff]
  · simp [ServerUtils.calculate_grades_stats, ServerUtils.computeStats, sumOver, getD,
      totalCount, totalAf, totalPoints, gpaMap, gpaTable, roundTo, round_eq]
    norm_num [Int.floor_eq_iff]

/-- Claim C4 as amended: increasing the count of A by k while holding
every other grade fixed never decreases the pass rate; and it never
decreases the average GPA provided the distribution has no A+ students
(with A+ students present the average can exceed 4.0, and adding A
students then lowers it, as the counterexample shows). -/
theorem C4_amended_bump_A (d₁ d₂ : GradeDist) (k : Nat)
    (hnd₁ : (d₁.map Prod.fst).Nodup) (hnd₂ : (d₂.map Prod.fst).Nodup)
    (hA : getD d₂ "A" = getD d₁ "A" + k)
    (hoth : ∀ g, g ≠ "A" → getD d₂ g = getD d₁ g) :
    (∀ q₁, (ServerUtils.calculate_grades_stats (PyInput.pydict d₁)).pass_rate = some q₁ →
      ∃ q₂, (ServerUtils.calculate_grades_stats (PyInput.pydict d₂)).pass_rate = some q₂ ∧
        q₁ ≤ q₂) ∧
    ((∀ p ∈ d₁, p.1 = "A+" → p.2 = 0) →
      ∀ q₁,
        (ServerUtils.calculate_grades_stats (PyInput.pydict d₁)).average_gpa = some q₁ →
      ∃ q₂,
        (ServerUtils.calculate_grades_stats (PyInput.pydict d₂)).average_gpa = some q₂ ∧
        q₁ ≤ q₂) := by
  have hP : sumOver ServerUtils.passing_grades d₂
      = sumOver ServerUtils.passing_grades d₁ + k := by
    rw [sumOver_bump ServerUtils.passing_grades hA hoth,
      show ServerUtils.passing_grades.count "A" = 1 by decide, Nat.mul_one]
  have hF : sumOver ServerUtils.failing_grades d₂
      = sumOver ServerUtils.failing_grades d₁ := by
    rw [sumOver_bump ServerUtils.failing_grades hA hoth,
      show ServerUtils.failing_grades.count "A" = 0 by decide, Nat.mul_zero, Nat.add_zero]
  have hT : totalAf d₂ = totalAf d₁ + k := by
    rw [totalAf_eq_sumOver d₂ hnd₂, totalAf_eq_sumOver d₁ hnd₁,
      sumOver_bump gpaNames hA hoth, show gpaNames.count "A" = 1 by decide, Nat.mul_one]
  have hPts : totalPoints d₂ = totalPoints d₁ + 4 * (k : ℚ) := by
    rw [totalPoints_eq_sum d₂ hnd₂, totalPoints_eq_sum d₁ hnd₁,
      weightedSum_bump gpaNames gpaW hA hoth]
    have h4 : (gpaNames.map fun x => if x = "A" then gpaW x else 0).sum = 4 := by
      simp [gpaNames, gpaTable, gpaW, gpaMap]
    rw [h4]
    ring
  have keyPass : ∀ p f c : ℚ, 0 ≤ p → 0 ≤ f → 0 ≤ c → 0 < p + f →
      p / (p + f) * 100 ≤ (p + c) / (p + c + f) * 100 := by
    intro p f c hp hf hc hpf
    have hpcf : 0 < p + c + f := by linarith
    rw [div_mul_eq_mul_div, div_mul_eq_mul_div, div_le_div_iff₀ hpf hpcf]
    have h1 : 0 ≤ c * f := mul_nonneg hc hf
    have expand : (p + c) * 100 * (p + f) - p * 100 * (p + c + f)
        = 100 * (c * f) := by ring
    linarith
  have keyAvg : ∀ P T c : ℚ, 0 ≤ c → 0 < T → P ≤ 4 * T →
      P / T ≤ (P + 4 * c) / (T + c) := by
    intro P T c hc hT0 hPT
    have hTc : 0 < T + c := by linarith
    rw [div_le_div_iff₀ hT0 hTc]
    have h1 : 0 ≤ c * (4 * T - P) := mul_nonneg hc (by linarith)
    have expand : (P + 4 * c) * T - P * (T + c) = c * (4 * T - P) := by ring
    linarith
  constructor
  · intro q₁ hq₁
    by_cases hd₁ : d₁ = []
    · subst hd₁
      simp [ServerUtils.calculate_grades_stats, ServerUtils.emptyStats] at hq₁
    · rw [show ServerUtils.calculate_grades_stats (PyInput.pydict d₁)
          = ServerUtils.computeStats d₁ by
            simp [ServerUtils.calculate_grades_stats, hd₁]] at hq₁
      simp only [ServerUtils.computeStats] at hq₁
      by_cases hpos : 0 < sumOver ServerUtils.passing_grades d₁
          + sumOver ServerUtils.failing_grades d₁
      · rw [if_pos hpos, Option.map_some', Option.some_inj] at hq₁
        have hpos₂ : 0 < sumOver ServerUtils.passing_grades d₂
            + sumOver ServerUtils.failing_grades d₂ := by omega
        have hd₂ : d₂ ≠ [] := by
          intro h
          subst h
          rw [sumOver_nil, sumOver_nil] at hpos₂
          omega
        rw [show ServerUtils.calculate_grades_stats (PyInput.pydict d₂)
            = ServerUtils.computeStats d₂ by
              simp [ServerUtils.calculate_grades_stats, hd₂]]
        simp only [ServerUtils.computeStats]
        rw [if_pos hpos₂, Option.map_some']
        refine ⟨_, rfl, ?_⟩
        rw [← hq₁]
        apply roundTo_mono
        rw [hP, hF]
        have hcast : (0 : ℚ) < (sumOver ServerUtils.passing_grades d₁ : ℚ)
            + (sumOver ServerUtils.failing_grades d₁ : ℚ) := by
          exact_mod_cast hpos
        push_cast
        exact keyPass _ _ _ (Nat.cast_nonneg _) (Nat.cast_nonneg _)
          (Nat.cast_nonneg _) hcast
      · rw [if_neg hpos] at hq₁
        simp at hq₁
  · intro hAplus q₁ hq₁
    by_cases hd₁ : d₁ = []
    · subst hd₁
      simp [ServerUtils.calculate_grades_stats, ServerUtils.emptyStats] at hq₁
    · rw [show ServerUtils.calculate_grades_stats (PyInput.pydict d₁)
          = ServerUtils.computeStats d₁ by
            simp [ServerUtils.calculate_grades_stats, hd₁]] at hq₁
      simp only [ServerUtils.computeStats] at hq₁
      by_cases hpos : 0 < totalAf d₁
      · rw [if_pos hpos, Option.map_some', Option.some_inj] at hq₁
        have hpos₂ : 0 < totalAf d₂ := by omega
        have hd₂ : d₂ ≠ [] := ne_nil_of_totalAf_pos hpos₂
        rw [show ServerUtils.calculate_grades_stats (PyInput.pydict d₂)
            = ServerUtils.computeStats d₂ by
              simp [ServerUtils.calculate_grades_stats, hd₂]]
        simp only [ServerUtils.computeStats]
        rw [if_pos hpos₂, Option.map_some']
        refine ⟨_, rfl, ?_⟩
        rw [← hq₁]
        apply roundTo_mono
        rw [hPts, hT]
        have hcast : (0 : ℚ) < (totalAf d₁ : ℚ) := by exact_mod_cast hpos
        have hbound := totalPoints_le_four d₁ hAplus
        push_cast
        exact keyAvg _ _ _ (Nat.cast_nonneg _) hcast hbound
      · rw [if_neg hpos] at hq₁
        simp at hq₁

/-- Witness for the amended claim C4: bumping A from 1 to 2 students in
`[("A", 1), ("F", 1)]` keeps the pass rate at least 50 and the average
GPA at least 2. -/
theorem C4_amended_witness :
    (∃ q₂, (ServerUtils.calculate_grades_stats
        (PyInput.pydict [("A", 2), ("F", 1)])).pass_rate = some q₂ ∧
      (50 : ℚ) ≤ q₂) ∧
    (∃ q₂, (ServerUtils.calculate_grades_stats
        (PyInput.pydict [("A", 2), ("F", 1)])).average_gpa = some q₂ ∧
      (2 : ℚ) ≤ q₂) := by
  have h := C4_amended_bump_A [("A", 1), ("F", 1)] [("A", 2), ("F", 1)] 1
    (by decide) (by decide) (by decide)
    (by
      intro g hg
      show (if "A" = g then 2 else if "F" = g then 1 else getD [] g)
          = (if "A" = g then 1 else if "F" = g then 1 else getD [] g)
      rw [if_neg (show ¬("A" = g) from fun e => hg e.symm),
        if_neg (show ¬("A" = g) from fun e => hg e.symm)])
  constructor
  · apply h.1 50
    simp [ServerUtils.calculate_grades_stats, ServerUtils.computeStats, sumOver, getD,
      totalCount, totalAf, totalPoints, gpaMap, gpaTable, ServerUtils.passing_grades,
      ServerUtils.failing_grades, roundTo, round_eq]
    norm_num [Int.floor_eq_iff]
  · apply h.2 (by decide) 2
    simp [ServerUtils.calculate_grades_stats, ServerUtils.computeStats, sumOver, getD,
      totalCount, totalAf, totalPoints, gpaMap, gpaTable, roundTo, round_eq]
    norm_num [Int.floor_eq_iff]

end ClaimC4
